import Mathlib

/-! # jamie-watching: the scraping handler of `main.go`

A shallow embedding of `fetchAnimeDetails`, its closure `getField`,
`getCurrentlyWatching` and `main`, with the parts of `net/http`, `strings`
and `goquery` that these functions call.

* Parsed HTML is a tree of `Node`s (the output of `goquery.NewDocumentFromReader`);
  the HTML parser itself is not modelled, a fetched body is either a parsed
  `Document` or a reader error.
* A goquery `Selection` is the list of its nodes, in the order goquery keeps them.
* Go strings are Lean `String`s; `strings.TrimSpace` and `strings.Contains` are
  defined on the character lists.
* The network is an oracle (`World`) that answers every outbound `GET`.
-/

namespace JamieWatching

/-! ## Go `strings` -/

/-- Go `unicode.IsSpace`: the Latin-1 spaces and the code points with the
Unicode White_Space property. -/
def isSpace (c : Char) : Bool :=
  let n := c.toNat
  (9 ≤ n && n ≤ 13) || n == 32 || n == 133 || n == 160 || n == 5760 ||
    (8192 ≤ n && n ≤ 8202) || n == 8232 || n == 8233 || n == 8239 || n == 8287 ||
    n == 12288

/-- Go `strings.TrimSpace` on the characters of a string: all leading and all
trailing white space removed. -/
def trimSpaceChars (cs : List Char) : List Char :=
  ((cs.dropWhile isSpace).reverse.dropWhile isSpace).reverse

/-- Go `strings.TrimSpace`. -/
def TrimSpace (s : String) : String :=
  String.mk (trimSpaceChars s.data)

/-- Go `strings.HasPrefix` on character lists. -/
def hasPrefixChars : List Char → List Char → Bool
  | _, [] => true
  | [], _ :: _ => false
  | c :: cs, p :: ps => c == p && hasPrefixChars cs ps

/-- Go `strings.Contains` on character lists: `sub` occurs in `cs` at some offset. -/
def containsChars (cs sub : List Char) : Bool :=
  match cs with
  | [] => hasPrefixChars [] sub
  | c :: rest => hasPrefixChars (c :: rest) sub || containsChars rest sub

/-- Go `strings.Contains`. -/
def Contains (s substr : String) : Bool :=
  containsChars s.data substr.data

/-! ## Parsed HTML (`golang.org/x/net/html`) -/

/-- An `html.Node` below the document node: `TextNode`, `CommentNode`,
`DoctypeNode` or `ElementNode` with its attributes (key, value) and children. -/
inductive Node where
  | text (data : String)
  | comment (data : String)
  | doctype (name : String)
  | element (tag : String) (attr : List (String × String)) (children : List Node)

/-- The `DocumentNode` at the root of a parsed page. -/
structure Document where
  children : List Node

/-- The tag and attributes of an `ElementNode`, which is all a selector looks at. -/
structure Elem where
  tag : String
  attr : List (String × String)

mutual
/-- The text `goquery`'s `Text()` collects from one node: the data of a text
node, the concatenated text of all descendants of an element, nothing for
comments and doctypes. -/
def Node.Text : Node → String
  | .text d => d
  | .comment _ => ""
  | .doctype _ => ""
  | .element _ _ cs => textOfNodes cs
/-- `Selection.Text()`: the texts of the nodes of the selection, concatenated. -/
def textOfNodes : List Node → String
  | [] => ""
  | n :: ns => n.Text ++ textOfNodes ns
end

/-- `Selection.Contents()` of a one-node selection: the children of the node,
text and comment nodes included. -/
def Node.Contents : Node → List Node
  | .element _ _ cs => cs
  | _ => []

/-- `Selection.First()`: the selection reduced to its first node. -/
def First (sel : List Node) : List Node :=
  sel.take 1

/-- The attribute lookup behind `Selection.Attr`: the value of the first
attribute with the key. -/
def getAttributeValue (name : String) : List (String × String) → Option String
  | [] => none
  | (k, v) :: rest => if k == name then some v else getAttributeValue name rest

/-- `Selection.Attr(name)`: the attribute of the first node of the selection;
`none` is `exists == false`. -/
def Attr (sel : List Node) (name : String) : Option String :=
  match sel with
  | .element _ attr _ :: _ => getAttributeValue name attr
  | _ => none

/-! ## Selectors (`cascadia`) -/

/-- The white space that separates class names in a `class` attribute. -/
def isClassSep (c : Char) : Bool :=
  c == ' ' || c == '\t' || c == '\r' || c == '\n' || c == '\x0c'

/-- The loop of cascadia's `matchInclude`: `cur` holds the characters of the
current token, reversed; a token is compared with `val` when a separator or the
end of the attribute value is reached, and an empty remainder matches nothing. -/
def matchIncludeFrom (val : List Char) : List Char → List Char → Bool
  | cur, [] => !cur.isEmpty && cur.reverse == val
  | cur, c :: cs =>
    if isClassSep c then cur.reverse == val || matchIncludeFrom val [] cs
    else matchIncludeFrom val (c :: cur) cs

/-- The class selector `.cls` on an attribute list: some `class` attribute has
`cls` among its white-space separated tokens. -/
def hasClass (cls : String) : List (String × String) → Bool
  | [] => false
  | (k, v) :: rest => (k == "class" && matchIncludeFrom cls.data [] v.data) || hasClass cls rest

/-- A compound selector: an optional tag name and class names, as in `div.status`. -/
structure Compound where
  tag : Option String
  classes : List String

/-- The combinators of the selectors in `main.go`: white space and `>`. -/
inductive Combinator where
  | descendant
  | child

/-- A complex selector, read from its subject (rightmost compound) leftwards. -/
structure Selector where
  subject : Compound
  context : List (Combinator × Compound)

/-- A compound selector matches an element. -/
def Compound.matchesElem (c : Compound) (e : Elem) : Bool :=
  (match c.tag with
    | none => true
    | some t => e.tag == t) && c.classes.all (fun cls => hasClass cls e.attr)

/-- The part of a selector left of its subject, matched against the ancestors
of a node (nearest first): `>` needs the parent, white space any ancestor. -/
def matchContext : List (Combinator × Compound) → List Elem → Bool
  | [], _ => true
  | _ :: _, [] => false
  | (.child, c) :: rest, p :: ps => c.matchesElem p && matchContext rest ps
  | (.descendant, c) :: rest, p :: ps =>
    (c.matchesElem p && matchContext rest ps) || matchContext ((.descendant, c) :: rest) ps

/-- A selector matches an element with the given ancestors. -/
def Selector.matchesElem (sel : Selector) (e : Elem) (ancestors : List Elem) : Bool :=
  sel.subject.matchesElem e && matchContext sel.context ancestors

mutual
/-- Selector `MatchAll` of cascadia: the node itself if it matches, then the
matches among its descendants, in document order. -/
def matchAll (sel : Selector) (ancestors : List Elem) : Node → List Node
  | .text _ => []
  | .comment _ => []
  | .doctype _ => []
  | .element tag attr cs =>
    (if sel.matchesElem ⟨tag, attr⟩ ancestors then [Node.element tag attr cs] else []) ++
      matchAllNodes sel (⟨tag, attr⟩ :: ancestors) cs
/-- The matches of `matchAll` over a list of sibling nodes, left to right. -/
def matchAllNodes (sel : Selector) (ancestors : List Elem) : List Node → List Node
  | [] => []
  | n :: ns => matchAll sel ancestors n ++ matchAllNodes sel ancestors ns
end

/-! ## Selections (`goquery`) -/

/-- The `doc.Find(selector)` of goquery: the elements of the document that
match, in document order. -/
def Document.Find (doc : Document) (sel : Selector) : List Node :=
  matchAllNodes sel [] doc.children

/-- The `s.Find(tag)` of goquery on a one-node selection with a tag-only or
class-only selector: the matching descendants of the node (not the node
itself), in document order. -/
def Node.Find (n : Node) (c : Compound) : List Node :=
  matchAllNodes ⟨c, []⟩ [] n.Contents

/-- Tag test of `ChildrenFiltered(tag)`. -/
def Node.hasTag (tag : String) : Node → Bool
  | .element t _ _ => t == tag
  | _ => false

/-- The `s.ChildrenFiltered(tag)` of goquery on a one-node selection: the
child elements with that tag, in order. -/
def Node.ChildrenFiltered (n : Node) (tag : String) : List Node :=
  n.Contents.filter (Node.hasTag tag)

/-- The loop of `EachWithBreak`: the callback gets the index and the node, and
the state its closure writes; it returns `false` to stop the iteration. -/
def eachWithBreakFrom {σ : Type} (f : Nat → Node → σ → σ × Bool) : Nat → List Node → σ → σ
  | _, [], st => st
  | i, n :: ns, st =>
    match f i n st with
    | (st1, true) => eachWithBreakFrom f (i + 1) ns st1
    | (st1, false) => st1

/-- The `EachWithBreak` of goquery, with the variables the callback captures
passed as state. -/
def EachWithBreak {σ : Type} (sel : List Node) (f : Nat → Node → σ → σ × Bool) (st : σ) : σ :=
  eachWithBreakFrom f 0 sel st

/-! ## The selectors of `main.go` -/

/-- Selector `.poster img`. -/
def posterImgSel : Selector := ⟨⟨some "img", []⟩, [(.descendant, ⟨none, ["poster"]⟩)]⟩
/-- Selector `.desc`. -/
def descSel : Selector := ⟨⟨none, ["desc"]⟩, []⟩
/-- Selector `.detail > div`. -/
def detailDivSel : Selector := ⟨⟨some "div", []⟩, [(.child, ⟨none, ["detail"]⟩)]⟩
/-- Selector `.info .rating`. -/
def infoRatingSel : Selector := ⟨⟨none, ["rating"]⟩, [(.descendant, ⟨none, ["info"]⟩)]⟩
/-- Selector `.info span b`. -/
def infoSpanBSel : Selector :=
  ⟨⟨some "b", []⟩, [(.descendant, ⟨some "span", []⟩), (.descendant, ⟨none, ["info"]⟩)]⟩
/-- Selector `.title`. -/
def titleSel : Selector := ⟨⟨none, ["title"]⟩, []⟩
/-- Selector `div.status`. -/
def divStatusSel : Selector := ⟨⟨some "div", ["status"]⟩, []⟩
/-- Selector `span`. -/
def spanSel : Compound := ⟨some "span", []⟩
/-- Selector `a`. -/
def aSel : Compound := ⟨some "a", []⟩

/-! ## `fetchAnimeDetails` -/

/-- The struct `Anime` (`Type_` is the field `Type`). -/
structure Anime where
  Title : String
  OriginalTitle : String
  Description : String
  Image : String
  URL : String
  Rating : String
  Episodes : String
  Duration : String
  Type_ : String
  Genres : String
deriving DecidableEq

/-- The zero value `Anime{}`. -/
def Anime.zero : Anime := ⟨"", "", "", "", "", "", "", "", "", ""⟩

/-- The value `strings.TrimSpace(s.Find("span").Text())` that a matching child
container supplies. -/
def spanValue (s : Node) : String :=
  TrimSpace (textOfNodes (s.Find spanSel))

/-- The test of `getField` on a child container `s`:
`strings.Contains(s.Contents().First().Text(), label+":")`. -/
def labelMatches (label : String) (s : Node) : Bool :=
  Contains (textOfNodes (First s.Contents)) (label ++ ":")

/-- The closure `getField` of `fetchAnimeDetails`. The outer callback's state
is `val`; the inner callback's state is `(val, found)`. -/
def getField (doc : Document) (label : String) : String :=
  EachWithBreak (doc.Find detailDivSel)
    (fun _ container (val : String) =>
      let inner : String × Bool :=
        EachWithBreak (container.ChildrenFiltered "div")
          (fun _ s (st : String × Bool) =>
            let text := textOfNodes (First s.Contents)
            if Contains text (label ++ ":") then
              ((TrimSpace (textOfNodes (s.Find spanSel)), true), false)
            else (st, true))
          (val, false)
      (inner.1, !inner.2))
    ""

/-- What one outbound `GET` yields: `http.NewRequest` fails, `client.Do`
fails, or a response arrives with a status code and a body that
`goquery.NewDocumentFromReader` either parses or fails to read. -/
inductive Response where
  | requestError
  | doError
  | reply (statusCode : Nat) (body : Option Document)

/-- The non-nil `error` values of `fetchAnimeDetails`. -/
inductive GoError where
  | newRequest
  | clientDo
  | parse
deriving DecidableEq

/-- The extraction of `fetchAnimeDetails` once the document is parsed
(lines 51 to 93). -/
def extractAnime (doc : Document) (animeURL : String) : Anime :=
  let img := doc.Find posterImgSel
  let image := (Attr img "src").getD ""
  let title := (Attr img "alt").getD ""
  let description := TrimSpace (textOfNodes (doc.Find descSel))
  let rating := TrimSpace (textOfNodes (doc.Find infoRatingSel))
  let episodes := getField doc "Episodes"
  let duration := getField doc "Duration"
  let genres := getField doc "Genres"
  let animeType := TrimSpace (textOfNodes (First (doc.Find infoSpanBSel)))
  let originalTitle := (Attr (doc.Find titleSel) "data-jp").getD ""
  { Title := title, OriginalTitle := originalTitle, Description := description,
    Image := image, URL := animeURL, Rating := rating, Episodes := episodes,
    Duration := duration, Type_ := animeType, Genres := genres }

/-- The function `fetchAnimeDetails`; `get` answers the request it sends. The
result is Go's pair `(Anime, error)`, `none` being `nil`. On a status other
than 200 the code returns `err`, which is `nil` after a successful `client.Do`. -/
def fetchAnimeDetails (get : String → Response) (animeURL : String) : Anime × Option GoError :=
  match get animeURL with
  | .requestError => (Anime.zero, some .newRequest)
  | .doError => (Anime.zero, some .clientDo)
  | .reply statusCode body =>
    if statusCode != 200 then (Anime.zero, none)
    else
      match body with
      | none => (Anime.zero, some .parse)
      | some doc => (extractAnime doc animeURL, none)

/-- The child containers `getField` visits, in the order it visits them: the
`div` children of the first `.detail > div` container, then those of the
second, and so on. -/
def candidates (doc : Document) : List Node :=
  (doc.Find detailDivSel).flatMap (fun container => container.ChildrenFiltered "div")

/-! ## `getCurrentlyWatching` -/

/-- The network as one run of the handler sees it: the answer to the `GET` of
the profile URL, and the answer to the `GET` that `fetchAnimeDetails` sends
while the callback handles status entry number `i`. -/
structure World where
  profile : String → Response
  detail : Nat → String → Response

/-- What the handler writes as the body: the text of `http.Error`, or the
`Anime` handed to the JSON encoder. -/
inductive Body where
  | plain (msg : String)
  | json (anime : Anime)
deriving DecidableEq

/-- The response the handler writes. -/
structure HttpReply where
  status : Nat
  contentType : String
  body : Body
deriving DecidableEq

/-- Go `http.Error`: a plain-text body with the status code. -/
def httpError (msg : String) (code : Nat) : HttpReply :=
  ⟨code, "text/plain; charset=utf-8", .plain (msg ++ "\n")⟩

/-- The variables the `div.status` callback writes (`anime`, `foundAnime`), and
the URLs handed to `fetchAnimeDetails` so far. -/
structure ScanState where
  anime : Anime
  foundAnime : Bool
  fetched : List String
deriving DecidableEq

/-- The callback of `doc.Find("div.status").EachWithBreak` (lines 129 to 145). -/
def statusEntry (net : World) (i : Nat) (s : Node) (st : ScanState) : ScanState × Bool :=
  let link := s.Find aSel
  match Attr link "href" with
  | some href =>
    let animeURL := "https://animekai.to" ++ href
    let st1 : ScanState := { st with fetched := st.fetched ++ [animeURL] }
    match fetchAnimeDetails (net.detail i) animeURL with
    | (_, some _) => (st1, true)
    | (animeData, none) => ({ st1 with anime := animeData, foundAnime := true }, false)
  | none => (st, true)

/-- One run of the handler: the response and the detail URLs fetched, in order. -/
structure Outcome where
  reply : HttpReply
  detailFetches : List String
deriving DecidableEq

/-- The handler `getCurrentlyWatching`. -/
def getCurrentlyWatching (net : World) : Outcome :=
  let profileURL := "https://animekai.to/user/m3nvy/profile"
  match net.profile profileURL with
  | .requestError => ⟨httpError "Failed to create request" 500, []⟩
  | .doError => ⟨httpError "Failed to fetch profile" 500, []⟩
  | .reply statusCode body =>
    if statusCode != 200 then ⟨httpError "Profile request failed" 500, []⟩
    else
      match body with
      | none => ⟨httpError "Failed to parse profile HTML" 500, []⟩
      | some doc =>
        let st := EachWithBreak (doc.Find divStatusSel) (statusEntry net) ⟨Anime.zero, false, []⟩
        if !st.foundAnime then
          ⟨httpError "No currently watching anime found" 404, st.fetched⟩
        else ⟨⟨200, "application/json", .json st.anime⟩, st.fetched⟩

/-! ## `main` -/

/-- What `main` sets up: the value of its variable `port`, the line it logs and
the address it passes to `http.ListenAndServe`. -/
structure Startup where
  port : String
  logLine : String
  listenAddr : String
deriving DecidableEq

/-- The function `main`; `getenv` is `os.Getenv`, which gives `""` for an unset
variable. -/
def main (getenv : String → String) : Startup :=
  let port := getenv "PORT"
  let port := if port == "" then "8080" else port
  { port := port, logLine := "Server running on port 8080...", listenAddr := ":8080" }

/-! ## Vocabulary of the properties -/

/-- The first element of a list of nodes that passes a test. -/
def firstMatch (p : Node → Bool) : List Node → Option Node
  | [] => none
  | x :: xs => if p x then some x else firstMatch p xs

/-- The data of the first text node among the children of a container: "its
first text node (ignoring nested element text)". -/
def firstTextNode : List Node → Option String
  | [] => none
  | .text d :: _ => some d
  | _ :: rest => firstTextNode rest

mutual
/-- The data of the first text node inside a node, nested elements included,
in document order. -/
def Node.firstTextInside : Node → Option String
  | .text d => some d
  | .comment _ => none
  | .doctype _ => none
  | .element _ _ cs => firstTextInsideNodes cs
/-- The data of the first text node inside a list of sibling nodes. -/
def firstTextInsideNodes : List Node → Option String
  | [] => none
  | n :: ns =>
    match n.firstTextInside with
    | some d => some d
    | none => firstTextInsideNodes ns
end

/-- The first text node of a container holds `label` followed by a colon. -/
def firstTextNodeContains (label : String) (s : Node) : Bool :=
  match firstTextNode s.Contents with
  | some d => Contains d (label ++ ":")
  | none => false

/-- A node is an element. -/
def Node.isElement : Node → Bool
  | .element _ _ _ => true
  | _ => false

/-- A node is a text node whose data holds `sub`. -/
def Node.isTextWith (sub : String) : Node → Bool
  | .text d => Contains d sub
  | _ => false

/-- The text `label:` occurs in a container only inside a nested element: some
child element holds it in its text, and no text node child of the container does. -/
def labelOnlyInNestedElement (label : String) (s : Node) : Bool :=
  s.Contents.all (fun n => !n.isTextWith (label ++ ":")) &&
    s.Contents.any (fun n => n.isElement && Contains n.Text (label ++ ":"))

/-- The `href` the callback reads from a status entry: `s.Find("a").Attr("href")`. -/
def statusHref (s : Node) : Option String :=
  Attr (s.Find aSel) "href"

/-- The callback passes over a status entry: its link has no `href`, or
`fetchAnimeDetails` returns a non-nil error for it. -/
def entryPassedOver (net : World) (i : Nat) (s : Node) : Bool :=
  match statusHref s with
  | none => true
  | some href => (fetchAnimeDetails (net.detail i) ("https://animekai.to" ++ href)).2.isSome

/-- The detail URLs of the status entries that carry an `href`, in order. -/
def linkedURLs : List Node → List String
  | [] => []
  | s :: rest =>
    match statusHref s with
    | some href => ("https://animekai.to" ++ href) :: linkedURLs rest
    | none => linkedURLs rest

/-- A Transport Fault or Parse Fault: request construction or network fetch
failure, a status other than 200, or a body that cannot be parsed. -/
def Response.isFault : Response → Bool
  | .requestError => true
  | .doError => true
  | .reply statusCode body => statusCode != 200 || body.isNone

/-! ## Example pages -/

/-- A child container `<div>Label: <span>value</span></div>`. -/
def labelled (label value : String) : Node :=
  .element "div" [] [.text (label ++ ": "), .element "span" [] [.text value]]

/-- Example container: the second `Episodes` container of `detailDoc`. -/
def secondEpisodes : Node := labelled "Episodes" "999"

/-- Example container: `Genres` with links inside its value span. -/
def genresContainer : Node :=
  .element "div" [] [.text "Genres: ", .element "span" []
    [.element "a" [("href", "/genres/action")] [.text "Action"], .text ", ",
      .element "a" [("href", "/genres/adventure")] [.text "Adventure"]]]

/-- A detail page with two `.detail > div` containers; `Episodes` is labelled twice. -/
def detailDoc : Document :=
  ⟨[.doctype "html", .element "html" [] [.element "head" [] [], .element "body" [] [
    .element "div" [("class", "poster")]
      [.element "img" [("src", "https://cdn/x.jpg"), ("alt", "Naruto")] []],
    .element "h1" [("class", "title"), ("data-jp", "NARUTO")] [.text "Naruto"],
    .element "div" [("class", "info")]
      [.element "span" [] [.element "b" [] [.text "TV"]],
        .element "span" [("class", "rating")] [.text " PG-13 "]],
    .element "div" [("class", "desc")] [.text "  A ninja.  "],
    .element "div" [("class", "detail")] [
      .element "div" [] [labelled "Country" "Japan", labelled "Episodes" " 220 ",
        labelled "Duration" "23 min"],
      .element "div" [] [secondEpisodes, genresContainer]]]]]⟩

/-- A detail page whose only labelled container is `Country`. -/
def sparseDoc : Document :=
  ⟨[.element "html" [] [.element "body" [] [
    .element "div" [("class", "detail")] [.element "div" [] [labelled "Country" "Japan"]]]]]⟩

/-- Example container: the label wrapped in `<b>`, no text node child. -/
def wrappedEpisodes : Node :=
  .element "div" [] [.element "b" [] [.text "Episodes:"], .element "span" [] [.text "12"]]

/-- A detail page whose `Episodes` label is wrapped in an extra element. -/
def wrappedDoc : Document :=
  ⟨[.element "html" [] [.element "body" [] [
    .element "div" [("class", "detail")] [.element "div" [] [wrappedEpisodes]]]]]⟩

/-- Example container: the `Genres` label wrapped in `<strong>` after an icon
element, `<div><strong><i>#</i> Genres:</strong><span>Action</span></div>`. -/
def wrappedGenres : Node :=
  .element "div" []
    [.element "strong" [] [.element "i" [] [.text "#"], .text " Genres:"],
      .element "span" [] [.text "Action"]]

/-- A detail page whose `Genres` label is wrapped in an extra element. -/
def wrappedGenresDoc : Document :=
  ⟨[.element "html" [] [.element "body" [] [
    .element "div" [("class", "detail")] [.element "div" [] [wrappedGenres]]]]]⟩

/-- A detail page whose container starts with other text and holds the
`Episodes` label in a later, nested element. -/
def laterLabelDoc : Document :=
  ⟨[.element "html" [] [.element "body" [] [
    .element "div" [("class", "detail")] [.element "div" []
      [.element "div" [] [.text "Note ", .element "b" [] [.text "Episodes:"],
        .element "span" [] [.text "12"]]]]]]]⟩

/-- A status entry `<div class="status"><a href=...>watching</a></div>`. -/
def statusLink (href : String) : Node :=
  .element "div" [("class", "status")] [.element "a" [("href", href)] [.text "watching"]]

/-- A profile page with four status entries, the first without a link. -/
def profileDoc : Document :=
  ⟨[.element "html" [] [.element "body" [] [
    .element "div" [("class", "status")] [.element "span" [] [.text "idle"]],
    statusLink "/watch/broken", statusLink "/watch/naruto-123", statusLink "/watch/later"]]]⟩

/-- A profile page with no current-activity entry: its only link is outside
`div.status`. -/
def idleDoc : Document :=
  ⟨[.element "html" [] [.element "body" [] [
    .element "div" [("class", "status")] [.element "a" [] [.text "nothing"]],
    .element "div" [("class", "menu")] [.element "a" [("href", "/home")] [.text "Home"]]]]]⟩

/-- A profile page whose status entry links with an absolute URL. -/
def absoluteDoc : Document :=
  ⟨[.element "html" [] [.element "body" [] [statusLink "https://animekai.to/watch/one-piece"]]]⟩

/-- A network: the profile is `profileDoc`; the detail fetch of entry 1 fails in
`client.Do`, every other detail fetch answers 200 with `detailDoc`. -/
def brokenLinkNet : World :=
  ⟨fun _ => .reply 200 (some profileDoc),
    fun i _ => if i == 1 then .doError else .reply 200 (some detailDoc)⟩

/-- A network: the profile is `profileDoc`; the detail fetch of entry 1 answers
404, every other detail fetch answers 200 with `detailDoc`. -/
def notFoundLinkNet : World :=
  ⟨fun _ => .reply 200 (some profileDoc),
    fun i _ => if i == 1 then .reply 404 (some sparseDoc) else .reply 200 (some detailDoc)⟩

/-- A network: the profile is `profileDoc`; the detail fetch of entry 1 answers
503 with a body that cannot be read, every other detail fetch answers 200 with
`detailDoc`. -/
def unavailableLinkNet : World :=
  ⟨fun _ => .reply 200 (some profileDoc),
    fun i _ => if i == 1 then .reply 503 none else .reply 200 (some detailDoc)⟩

/-- A network: the profile is `profileDoc`; every detail fetch fails in `client.Do`. -/
def detailDownNet : World :=
  ⟨fun _ => .reply 200 (some profileDoc), fun _ _ => .doError⟩

/-- A network: the profile is `absoluteDoc`; every detail fetch answers 200
with `detailDoc`. -/
def absoluteNet : World :=
  ⟨fun _ => .reply 200 (some absoluteDoc), fun _ _ => .reply 200 (some detailDoc)⟩

/-- A network: the profile is `idleDoc`; every detail fetch answers 200 with
`detailDoc`. -/
def idleNet : World :=
  ⟨fun _ => .reply 200 (some idleDoc), fun _ _ => .reply 200 (some detailDoc)⟩

/-- The record `fetchAnimeDetails` extracts from `detailDoc` fetched at `url`. -/
def narutoRecord (url : String) : Anime :=
  { Title := "Naruto", OriginalTitle := "NARUTO", Description := "A ninja.",
    Image := "https://cdn/x.jpg", URL := url, Rating := "PG-13", Episodes := "220",
    Duration := "23 min", Type_ := "TV", Genres := "Action, Adventure" }

/-- An environment in which only `PORT` is set. -/
def envWithPort (p : String) : String → String :=
  fun key => if key == "PORT" then p else ""

end JamieWatching

namespace JamieWatching

/-! ## Properties: the label scan as a search -/

theorem firstMatch_append (p : Node → Bool) (xs ys : List Node) :
    firstMatch p (xs ++ ys) =
      match firstMatch p xs with
      | some x => some x
      | none => firstMatch p ys := by
  induction xs with
  | nil => simp [firstMatch]
  | cons x xs ih =>
    by_cases hx : p x = true
    · simp [firstMatch, hx]
    · simp [firstMatch, hx, ih]

theorem firstMatch_none_of_forall (p : Node → Bool) (xs : List Node)
    (h : ∀ x ∈ xs, p x = false) : firstMatch p xs = none := by
  induction xs with
  | nil => rfl
  | cons x xs ih =>
    have hx : p x = false := h x (List.mem_cons_self x xs)
    have hxs : ∀ y ∈ xs, p y = false := fun y hy => h y (List.mem_cons_of_mem x hy)
    simp [firstMatch, hx, ih hxs]

theorem firstMatch_split (p : Node → Bool) (pre post : List Node) (c : Node)
    (hpre : ∀ x ∈ pre, p x = false) (hc : p c = true) :
    firstMatch p (pre ++ c :: post) = some c := by
  rw [firstMatch_append, firstMatch_none_of_forall p pre hpre]
  simp [firstMatch, hc]

/-- The inner `EachWithBreak` of `getField` ends with the value of the first
matching child and `found = true`, or leaves `(val, found)` as it was. -/
theorem inner_scan (label : String) (xs : List Node) (i : Nat) (st : String × Bool) :
    eachWithBreakFrom
        (fun _ s (st : String × Bool) =>
          let text := textOfNodes (First s.Contents)
          if Contains text (label ++ ":") then
            ((TrimSpace (textOfNodes (s.Find spanSel)), true), false)
          else (st, true))
        i xs st =
      match firstMatch (labelMatches label) xs with
      | some s => (spanValue s, true)
      | none => st := by
  induction xs generalizing i with
  | nil => simp [eachWithBreakFrom, firstMatch]
  | cons x xs ih =>
    by_cases hx : Contains (textOfNodes (First x.Contents)) (label ++ ":") = true
    · simp [eachWithBreakFrom, firstMatch, labelMatches, spanValue, hx]
    · simp [eachWithBreakFrom, firstMatch, labelMatches, hx, ih]

/-- An `EachWithBreak` whose callback stops with the value of the first
matching child of the container, started with `val`, ends with the value of the
first matching child over all containers, or with `val`. -/
theorem outer_scan (label : String) (f : Nat → Node → String → String × Bool)
    (hf : ∀ i container val, f i container val =
      match firstMatch (labelMatches label) (container.ChildrenFiltered "div") with
      | some s => (spanValue s, false)
      | none => (val, true))
    (cs : List Node) (i : Nat) (val : String) :
    eachWithBreakFrom f i cs val =
      match firstMatch (labelMatches label)
          (cs.flatMap (fun container => container.ChildrenFiltered "div")) with
      | some s => spanValue s
      | none => val := by
  induction cs generalizing i val with
  | nil => simp [eachWithBreakFrom, firstMatch]
  | cons c cs ih =>
    rw [eachWithBreakFrom, hf, List.flatMap_cons, firstMatch_append]
    cases hm : firstMatch (labelMatches label) (c.ChildrenFiltered "div") with
    | none => simp [ih]
    | some s => simp

/-- The closure `getField` returns the value of the first child container, in
visiting order, that passes the label test, and `""` when there is none. -/
theorem getField_eq_firstMatch (doc : Document) (label : String) :
    getField doc label =
      match firstMatch (labelMatches label) (candidates doc) with
      | some s => spanValue s
      | none => "" := by
  unfold getField EachWithBreak candidates
  apply outer_scan label
  intro i container val
  simp only [inner_scan]
  cases firstMatch (labelMatches label) (container.ChildrenFiltered "div") <;> simp

/-- The three label-scanned fields of the record are `getField` of their labels,
and `fetchAnimeDetails` returns a nil error on a parsed 200 response. -/
theorem fetchAnimeDetails_ok (get : String → Response) (url : String) (doc : Document)
    (hget : get url = .reply 200 (some doc)) :
    fetchAnimeDetails get url = (extractAnime doc url, none) := by
  simp [fetchAnimeDetails, hget]

/-- The label test on a container with at least one child looks at the text
of that first child alone. -/
theorem labelMatches_cons (label tag : String) (attr : List (String × String))
    (first : Node) (rest : List Node) :
    labelMatches label (.element tag attr (first :: rest)) =
      Contains first.Text (label ++ ":") := by
  simp [labelMatches, Node.Contents, First, textOfNodes]

/-- The value of `getField` when the child containers split at the first one
that passes the label test. -/
theorem getField_of_split (doc : Document) (label : String)
    (pre post : List Node) (c : Node)
    (hsplit : candidates doc = pre ++ c :: post)
    (hpre : ∀ x ∈ pre, labelMatches label x = false)
    (hc : labelMatches label c = true) :
    getField doc label = spanValue c := by
  rw [getField_eq_firstMatch, hsplit, firstMatch_split _ pre post c hpre hc]

/-- C1: when the child containers, in visiting order (the outer `.detail > div`
containers in order, each with its `div` children in order), are
`pre ++ c :: post`, no container of `pre` passes the label test and `c` passes
it, `getField` returns the value of `c`, whatever `post` holds, further
matching containers included. -/
theorem getField_first_match_wins (doc : Document) (label : String)
    (pre post : List Node) (c : Node)
    (hsplit : candidates doc = pre ++ c :: post)
    (hpre : ∀ x ∈ pre, labelMatches label x = false)
    (hc : labelMatches label c = true) :
    getField doc label = spanValue c :=
  getField_of_split doc label pre post c hsplit hpre hc

/-- C1, on `detailDoc`: `Episodes` is labelled in the second and in the fourth
child container, and the value is the one of the second. -/
theorem getField_first_match_wins_witness :
    labelMatches "Episodes" secondEpisodes = true ∧
      getField detailDoc "Episodes" = spanValue (labelled "Episodes" " 220 ") :=
  ⟨by decide,
    getField_first_match_wins detailDoc "Episodes" [labelled "Country" "Japan"]
      [labelled "Duration" "23 min", secondEpisodes, genresContainer]
      (labelled "Episodes" " 220 ") rfl (by decide) (by decide)⟩

/-- C2, as stated, fails on `detailDoc`: the fourth child container has a first
text node that holds `Episodes:` and one nested span, with text `999`, yet
`getField` returns `220`, the value of the earlier container with that label. -/
theorem later_duplicate_label_not_extracted :
    candidates detailDoc =
        [labelled "Country" "Japan", labelled "Episodes" " 220 ", labelled "Duration" "23 min",
          secondEpisodes, genresContainer] ∧
      firstTextNodeContains "Episodes" secondEpisodes = true ∧
      secondEpisodes.Find spanSel = [.element "span" [] [.text "999"]] ∧
      TrimSpace (Node.Text (.element "span" [] [.text "999"])) = "999" ∧
      getField detailDoc "Episodes" = "220" ∧
      getField detailDoc "Episodes" ≠ TrimSpace (Node.Text (.element "span" [] [.text "999"])) :=
  ⟨rfl, by decide, rfl, by decide, by decide, by decide⟩

/-- C2, amended: when a child container starts with a text node that holds
`label:`, has exactly one nested span `sp`, and no child container visited
before it passes the label test, `getField` returns the trimmed text of `sp`,
whatever the other containers are. -/
theorem getField_value_of_first_labelled (doc : Document) (label : String)
    (pre post : List Node) (tag : String) (attr : List (String × String)) (d : String)
    (rest : List Node) (sp : Node)
    (hsplit : candidates doc = pre ++ Node.element tag attr (Node.text d :: rest) :: post)
    (hpre : ∀ x ∈ pre, labelMatches label x = false)
    (hd : Contains d (label ++ ":") = true)
    (hsp : (Node.element tag attr (Node.text d :: rest)).Find spanSel = [sp]) :
    getField doc label = TrimSpace sp.Text := by
  have hc : labelMatches label (Node.element tag attr (Node.text d :: rest)) = true := by
    rw [labelMatches_cons]; simpa [Node.Text] using hd
  rw [getField_of_split doc label pre post _ hsplit hpre hc]
  simp [spanValue, hsp, textOfNodes]

/-- C2 amended, on `detailDoc`: `Genres` is the fifth child container, and its
value is the trimmed text of its span. -/
theorem getField_value_of_first_labelled_witness :
    getField detailDoc "Genres" = "Action, Adventure" :=
  getField_value_of_first_labelled detailDoc "Genres"
    [labelled "Country" "Japan", labelled "Episodes" " 220 ", labelled "Duration" "23 min",
      secondEpisodes]
    [] "div" [] "Genres: "
    [.element "span" []
      [.element "a" [("href", "/genres/action")] [.text "Action"], .text ", ",
        .element "a" [("href", "/genres/adventure")] [.text "Adventure"]]]
    (.element "span" []
      [.element "a" [("href", "/genres/action")] [.text "Action"], .text ", ",
        .element "a" [("href", "/genres/adventure")] [.text "Adventure"]])
    rfl (by decide) (by decide) rfl

/-- C3, as stated, fails on `wrappedGenresDoc`: its only child container has no
text node child, and the first text node inside it is `#`, so no first text
node holds `Genres:`; yet the text of its first child node is `# Genres:`,
`getField` returns `Action` and the record's `Genres` is `Action`. -/
theorem wrapped_label_still_extracted :
    candidates wrappedGenresDoc = [wrappedGenres] ∧
      firstTextNode wrappedGenres.Contents = none ∧
      firstTextNodeContains "Genres" wrappedGenres = false ∧
      wrappedGenres.firstTextInside = some "#" ∧
      Contains "#" ("Genres" ++ ":") = false ∧
      textOfNodes (First wrappedGenres.Contents) = "# Genres:" ∧
      getField wrappedGenresDoc "Genres" = "Action" ∧
      (fetchAnimeDetails (fun _ => .reply 200 (some wrappedGenresDoc)) "u").1.Genres = "Action" :=
  ⟨rfl, rfl, by decide, rfl, by decide, by decide, by decide, by decide⟩

/-- C3, amended: when no child container passes the label test of `getField`
(the text of its first child node, of whatever kind, holds `label:`),
`getField` returns `""`, `fetchAnimeDetails` returns a nil error on a parsed
200 response, and the record's field for the label is `""`. -/
theorem getField_empty_without_match (doc : Document) (label : String)
    (get : String → Response) (url : String)
    (hnone : ∀ c ∈ candidates doc, labelMatches label c = false)
    (hget : get url = .reply 200 (some doc)) :
    getField doc label = "" ∧ (fetchAnimeDetails get url).2 = none ∧
      (label = "Episodes" → (fetchAnimeDetails get url).1.Episodes = "") ∧
      (label = "Duration" → (fetchAnimeDetails get url).1.Duration = "") ∧
      (label = "Genres" → (fetchAnimeDetails get url).1.Genres = "") := by
  have h0 : getField doc label = "" := by
    rw [getField_eq_firstMatch, firstMatch_none_of_forall _ _ hnone]
  rw [fetchAnimeDetails_ok get url doc hget]
  refine ⟨h0, rfl, ?_, ?_, ?_⟩ <;> intro hl <;> subst hl <;> exact h0

/-- C3 amended, on `sparseDoc`, which labels only `Country`. -/
theorem getField_empty_without_match_witness :
    getField sparseDoc "Episodes" = "" ∧
      (fetchAnimeDetails (fun _ => .reply 200 (some sparseDoc)) "u").2 = none ∧
      (fetchAnimeDetails (fun _ => .reply 200 (some sparseDoc)) "u").1.Episodes = "" :=
  have h := getField_empty_without_match sparseDoc "Episodes"
    (fun _ => .reply 200 (some sparseDoc)) "u" (by decide) rfl
  ⟨h.1, h.2.1, h.2.2.1 rfl⟩

/-- C4, as stated, fails on `wrappedDoc`: the label `Episodes:` of its only
child container occurs only inside the nested `b` element, yet the container
passes the label test and supplies the value `12`. -/
theorem wrapped_label_matches :
    candidates wrappedDoc = [wrappedEpisodes] ∧
      labelOnlyInNestedElement "Episodes" wrappedEpisodes = true ∧
      labelMatches "Episodes" wrappedEpisodes = true ∧
      getField wrappedDoc "Episodes" = "12" :=
  ⟨rfl, by decide, by decide, by decide⟩

/-- C4, amended: the label test of `getField` looks at the first child node of
a child container only, with all the text inside it when it is an element,
and ignores the other children. With no match before the container: if the
text of the first child holds `label:` the container supplies the value; if
not, it supplies nothing, whatever its other children hold, and the value is
the one of the first match after it, or `""`. -/
theorem getField_tests_first_child_only (doc : Document) (label : String)
    (pre post : List Node) (tag : String) (attr : List (String × String))
    (first : Node) (rest : List Node)
    (hsplit : candidates doc = pre ++ Node.element tag attr (first :: rest) :: post)
    (hpre : ∀ x ∈ pre, labelMatches label x = false) :
    (Contains first.Text (label ++ ":") = true →
        getField doc label = spanValue (Node.element tag attr (first :: rest))) ∧
      (Contains first.Text (label ++ ":") = false →
        getField doc label =
          match firstMatch (labelMatches label) post with
          | some s => spanValue s
          | none => "") := by
  constructor
  · intro h
    exact getField_of_split doc label pre post _ hsplit hpre
      (by rw [labelMatches_cons]; exact h)
  · intro h
    have hc : labelMatches label (Node.element tag attr (first :: rest)) = false := by
      rw [labelMatches_cons]; exact h
    rw [getField_eq_firstMatch, hsplit, firstMatch_append,
      firstMatch_none_of_forall _ pre hpre]
    simp [firstMatch, hc]

/-- C4 amended, on `laterLabelDoc`: the container starts with the text `Note `
and holds `Episodes:` in a later `b` element; it supplies no value. -/
theorem getField_tests_first_child_only_witness :
    getField laterLabelDoc "Episodes" = "" :=
  (getField_tests_first_child_only laterLabelDoc "Episodes" [] [] "div" []
    (.text "Note ") [.element "b" [] [.text "Episodes:"], .element "span" [] [.text "12"]]
    rfl (by decide)).2 (by decide)

/-! ## The status scan -/

/-- Entries that are passed over only add their URLs to the fetch log. -/
theorem scan_passed_over (net : World) (pre rest : List Node) (k : Nat) (st : ScanState)
    (hpre : ∀ i s, pre[i]? = some s → entryPassedOver net (k + i) s = true) :
    eachWithBreakFrom (statusEntry net) k (pre ++ rest) st =
      eachWithBreakFrom (statusEntry net) (k + pre.length) rest
        { st with fetched := st.fetched ++ linkedURLs pre } := by
  induction pre generalizing k st with
  | nil => simp [linkedURLs]
  | cons x xs ih =>
    have hx : entryPassedOver net k x = true := by
      have := hpre 0 x (by simp)
      simpa using this
    have hxs : ∀ i s, xs[i]? = some s → entryPassedOver net (k + 1 + i) s = true := by
      intro i s hs
      have := hpre (i + 1) s (by simpa using hs)
      simpa [Nat.add_assoc, Nat.add_comm 1 i] using this
    rw [List.cons_append, eachWithBreakFrom]
    unfold entryPassedOver at hx
    cases hh : statusHref x with
    | none =>
      have hstep : statusEntry net k x st = (st, true) := by
        unfold statusHref at hh
        simp [statusEntry, hh]
      rw [hstep]
      simp only []
      rw [ih (k + 1) st hxs]
      simp [linkedURLs, hh, Nat.add_assoc, Nat.add_comm 1 xs.length]
    | some href =>
      rw [hh] at hx
      have hstep : statusEntry net k x st =
          ({ st with fetched := st.fetched ++ ["https://animekai.to" ++ href] }, true) := by
        unfold statusHref at hh
        cases hf : fetchAnimeDetails (net.detail k) ("https://animekai.to" ++ href) with
        | mk a err =>
          simp only [hf] at hx
          cases err with
          | none => simp at hx
          | some e => simp [statusEntry, hh, hf]
      rw [hstep]
      simp only []
      rw [ih (k + 1) _ hxs]
      simp [linkedURLs, hh, Nat.add_assoc, Nat.add_comm 1 xs.length]

/-- The handler on a profile that was fetched and parsed. -/
theorem getCurrentlyWatching_parsed (net : World) (doc : Document)
    (hprofile : net.profile "https://animekai.to/user/m3nvy/profile" = .reply 200 (some doc)) :
    getCurrentlyWatching net =
      (let st := eachWithBreakFrom (statusEntry net) 0 (doc.Find divStatusSel)
          ⟨Anime.zero, false, []⟩
       if !st.foundAnime then ⟨httpError "No currently watching anime found" 404, st.fetched⟩
       else ⟨⟨200, "application/json", .json st.anime⟩, st.fetched⟩) := by
  simp [getCurrentlyWatching, hprofile, EachWithBreak]

/-- The scan with the test the code applies: when the status entries are
`pre ++ e :: post`, every entry of `pre` is passed over (no `href`, or a non-nil
error from `fetchAnimeDetails`), and `fetchAnimeDetails` returns `anime` with a
nil error for the `href` of `e`, the response is 200 with `anime` and the detail
fetches are those of `pre` followed by the one of `e`; nothing is fetched for
`post`. A nil error is also what a reply with a status other than 200 gives. -/
theorem scan_stops_at_first_success (net : World) (doc : Document)
    (pre post : List Node) (e : Node) (href : String) (anime : Anime)
    (hprofile : net.profile "https://animekai.to/user/m3nvy/profile" = .reply 200 (some doc))
    (hsplit : doc.Find divStatusSel = pre ++ e :: post)
    (hpre : ∀ i s, pre[i]? = some s → entryPassedOver net i s = true)
    (hhref : statusHref e = some href)
    (hok : fetchAnimeDetails (net.detail pre.length) ("https://animekai.to" ++ href) =
      (anime, none)) :
    getCurrentlyWatching net =
      ⟨⟨200, "application/json", .json anime⟩,
        linkedURLs pre ++ ["https://animekai.to" ++ href]⟩ := by
  rw [getCurrentlyWatching_parsed net doc hprofile, hsplit,
    scan_passed_over net pre (e :: post) 0 _ (by simpa using hpre)]
  unfold statusHref at hhref
  simp [eachWithBreakFrom, statusEntry, hhref, hok]

/-- The scan on `brokenLinkNet`: entry 0 has no link, the fetch for entry 1
fails in `client.Do`, entry 2 succeeds; entry 3 is never fetched. -/
theorem scan_stops_at_first_success_witness :
    getCurrentlyWatching brokenLinkNet =
      ⟨⟨200, "application/json", .json (narutoRecord "https://animekai.to/watch/naruto-123")⟩,
        ["https://animekai.to/watch/broken", "https://animekai.to/watch/naruto-123"]⟩ :=
  scan_stops_at_first_success brokenLinkNet profileDoc
    [.element "div" [("class", "status")] [.element "span" [] [.text "idle"]],
      statusLink "/watch/broken"]
    [statusLink "/watch/later"] (statusLink "/watch/naruto-123") "/watch/naruto-123"
    (narutoRecord "https://animekai.to/watch/naruto-123") rfl rfl
    (by
      intro i s hs
      match i, hs with
      | 0, hs => simp at hs; subst hs; decide
      | 1, hs => simp at hs; subst hs; decide
      | n + 2, hs => simp at hs)
    rfl (by decide)

/-- Every URL of `linkedURLs` is the base origin followed by the `href` of one
of the entries. -/
theorem mem_linkedURLs (entries : List Node) (u : String) (hu : u ∈ linkedURLs entries) :
    ∃ s ∈ entries, ∃ href, statusHref s = some href ∧ u = "https://animekai.to" ++ href := by
  induction entries with
  | nil => simp [linkedURLs] at hu
  | cons x xs ih =>
    cases hh : statusHref x with
    | none =>
      simp only [linkedURLs, hh] at hu
      obtain ⟨s, hs, href, h1, h2⟩ := ih hu
      exact ⟨s, List.mem_cons_of_mem x hs, href, h1, h2⟩
    | some href =>
      simp only [linkedURLs, hh, List.mem_cons] at hu
      cases hu with
      | inl h => exact ⟨x, List.mem_cons_self x xs, href, hh, h⟩
      | inr h =>
        obtain ⟨s, hs, href1, h1, h2⟩ := ih h
        exact ⟨s, List.mem_cons_of_mem x hs, href1, h1, h2⟩

/-- Entries without an `href` have no detail URL. -/
theorem linkedURLs_of_no_href (entries : List Node)
    (hnone : ∀ s ∈ entries, statusHref s = none) : linkedURLs entries = [] := by
  induction entries with
  | nil => rfl
  | cons x xs ih =>
    have hx : statusHref x = none := hnone x (List.mem_cons_self x xs)
    simp [linkedURLs, hx, ih (fun s hs => hnone s (List.mem_cons_of_mem x hs))]

/-- The scan appends to the fetch log an initial part of the detail URLs of the
entries, and at least one URL when some entry has an `href`. -/
theorem scan_fetched (net : World) (entries : List Node) (k : Nat) (st : ScanState) :
    ∃ t, (eachWithBreakFrom (statusEntry net) k entries st).fetched = st.fetched ++ t ∧
      t <+: linkedURLs entries ∧ (linkedURLs entries ≠ [] → t ≠ []) := by
  induction entries generalizing k st with
  | nil => exact ⟨[], by simp [eachWithBreakFrom], by simp [linkedURLs], by simp [linkedURLs]⟩
  | cons x xs ih =>
    cases hh : statusHref x with
    | none =>
      have hstep : statusEntry net k x st = (st, true) := by
        unfold statusHref at hh
        simp [statusEntry, hh]
      obtain ⟨t, h1, h2, h3⟩ := ih (k + 1) st
      refine ⟨t, ?_, ?_, ?_⟩
      · rw [eachWithBreakFrom, hstep]; exact h1
      · simpa [linkedURLs, hh] using h2
      · simpa [linkedURLs, hh] using h3
    | some href =>
      cases hf : fetchAnimeDetails (net.detail k) ("https://animekai.to" ++ href) with
      | mk a err =>
        cases err with
        | none =>
          have hstep : statusEntry net k x st =
              ({ anime := a, foundAnime := true,
                 fetched := st.fetched ++ ["https://animekai.to" ++ href] }, false) := by
            unfold statusHref at hh
            simp [statusEntry, hh, hf]
          refine ⟨["https://animekai.to" ++ href], ?_, ?_, ?_⟩
          · rw [eachWithBreakFrom, hstep]
          · simp only [linkedURLs, hh]
            exact ⟨linkedURLs xs, rfl⟩
          · simp
        | some e =>
          have hstep : statusEntry net k x st =
              ({ st with fetched := st.fetched ++ ["https://animekai.to" ++ href] }, true) := by
            unfold statusHref at hh
            simp [statusEntry, hh, hf]
          obtain ⟨t, h1, h2, h3⟩ := ih (k + 1)
            { st with fetched := st.fetched ++ ["https://animekai.to" ++ href] }
          refine ⟨("https://animekai.to" ++ href) :: t, ?_, ?_, ?_⟩
          · rw [eachWithBreakFrom, hstep]
            simp only []
            rw [h1]
            simp
          · simp only [linkedURLs, hh]
            obtain ⟨r, hr⟩ := h2
            exact ⟨r, by rw [← hr]; rfl⟩
          · simp

/-- The detail fetches of the handler are the `fetched` log of its scan. -/
theorem detailFetches_parsed (net : World) (doc : Document)
    (hprofile : net.profile "https://animekai.to/user/m3nvy/profile" = .reply 200 (some doc)) :
    (getCurrentlyWatching net).detailFetches =
      (eachWithBreakFrom (statusEntry net) 0 (doc.Find divStatusSel)
        ⟨Anime.zero, false, []⟩).fetched := by
  rw [getCurrentlyWatching_parsed net doc hprofile]
  simp only []
  split <;> rfl

/-- C6, as stated, fails on `absoluteNet`: the `href` of the status entry is
the absolute URL `https://animekai.to/watch/one-piece`, and the base origin is
prefixed to it all the same, in the URL fetched and in the record. -/
theorem base_prefixed_to_absolute_href :
    statusHref (statusLink "https://animekai.to/watch/one-piece") =
        some "https://animekai.to/watch/one-piece" ∧
      getCurrentlyWatching absoluteNet =
        ⟨⟨200, "application/json",
            .json (narutoRecord "https://animekai.tohttps://animekai.to/watch/one-piece")⟩,
          ["https://animekai.tohttps://animekai.to/watch/one-piece"]⟩ :=
  ⟨rfl, by decide⟩

/-- C6, amended: every detail URL the handler fetches is the base origin
`https://animekai.to` followed by the `href` of a status entry, whatever the
`href` is; the URLs fetched are an initial part of the URLs so built from the
entries with an `href`, in order, and not empty when there is such an entry. -/
theorem detail_urls_are_prefixed_hrefs (net : World) (doc : Document)
    (hprofile : net.profile "https://animekai.to/user/m3nvy/profile" = .reply 200 (some doc)) :
    (getCurrentlyWatching net).detailFetches <+: linkedURLs (doc.Find divStatusSel) ∧
      (linkedURLs (doc.Find divStatusSel) ≠ [] → (getCurrentlyWatching net).detailFetches ≠ []) ∧
      ∀ u ∈ (getCurrentlyWatching net).detailFetches,
        ∃ s ∈ doc.Find divStatusSel, ∃ href,
          statusHref s = some href ∧ u = "https://animekai.to" ++ href := by
  obtain ⟨t, h1, h2, h3⟩ :=
    scan_fetched net (doc.Find divStatusSel) 0 ⟨Anime.zero, false, []⟩
  have ht : (getCurrentlyWatching net).detailFetches = t := by
    rw [detailFetches_parsed net doc hprofile, h1]; simp
  rw [ht]
  exact ⟨h2, h3, fun u hu => mem_linkedURLs _ u (h2.subset hu)⟩

/-- C6 amended, on `brokenLinkNet`. -/
theorem detail_urls_are_prefixed_hrefs_witness :
    (getCurrentlyWatching brokenLinkNet).detailFetches <+:
        linkedURLs (profileDoc.Find divStatusSel) ∧
      (linkedURLs (profileDoc.Find divStatusSel) ≠ [] →
        (getCurrentlyWatching brokenLinkNet).detailFetches ≠ []) ∧
      ∀ u ∈ (getCurrentlyWatching brokenLinkNet).detailFetches,
        ∃ s ∈ profileDoc.Find divStatusSel, ∃ href,
          statusHref s = some href ∧ u = "https://animekai.to" ++ href :=
  detail_urls_are_prefixed_hrefs brokenLinkNet profileDoc rfl

/-- C7 fails on `notFoundLinkNet`: the detail fetch of the first linked entry
answers 404, for which `fetchAnimeDetails` returns the zero record with a nil
error; the detail fetch of the next entry would succeed, but the scan has
stopped and the response is 200 with the zero record. -/
theorem non200_detail_ends_scan :
    (notFoundLinkNet.detail 1 "https://animekai.to/watch/broken").isFault = true ∧
      fetchAnimeDetails (notFoundLinkNet.detail 1) "https://animekai.to/watch/broken" =
        (Anime.zero, none) ∧
      fetchAnimeDetails (notFoundLinkNet.detail 2) "https://animekai.to/watch/naruto-123" =
        (narutoRecord "https://animekai.to/watch/naruto-123", none) ∧
      getCurrentlyWatching notFoundLinkNet =
        ⟨⟨200, "application/json", .json Anime.zero⟩, ["https://animekai.to/watch/broken"]⟩ :=
  ⟨by decide, by decide, by decide, by decide⟩

/-- C5 fails on `unavailableLinkNet`: the detail fetch of entry 1 answers 503, a
fault, and the detail fetch of entry 2 is the first that succeeds; the scan
stops at entry 1 all the same, the response is 200 with the zero record, and
the URL of entry 2 is never fetched. -/
theorem non200_entry_shadows_first_success :
    (unavailableLinkNet.detail 1 "https://animekai.to/watch/broken").isFault = true ∧
      (unavailableLinkNet.detail 2 "https://animekai.to/watch/naruto-123").isFault = false ∧
      fetchAnimeDetails (unavailableLinkNet.detail 2) "https://animekai.to/watch/naruto-123" =
        (narutoRecord "https://animekai.to/watch/naruto-123", none) ∧
      getCurrentlyWatching unavailableLinkNet =
        ⟨⟨200, "application/json", .json Anime.zero⟩, ["https://animekai.to/watch/broken"]⟩ ∧
      "https://animekai.to/watch/naruto-123" ∉
        (getCurrentlyWatching unavailableLinkNet).detailFetches :=
  ⟨by decide, by decide, by decide, by decide, by decide⟩

/-- The faults that `fetchAnimeDetails` does report: a failure of
`http.NewRequest`, of `client.Do`, or of the parse of a 200 response. -/
theorem fetchAnimeDetails_reported_faults (get : String → Response) (url : String) :
    (get url = .requestError → (fetchAnimeDetails get url).2 = some .newRequest) ∧
      (get url = .doError → (fetchAnimeDetails get url).2 = some .clientDo) ∧
      (get url = .reply 200 none → (fetchAnimeDetails get url).2 = some .parse) := by
  refine ⟨?_, ?_, ?_⟩ <;> intro h <;> simp [fetchAnimeDetails, h]

/-- A status other than 200 is returned with a nil error and the zero record. -/
theorem fetchAnimeDetails_non200 (get : String → Response) (url : String) (code : Nat)
    (body : Option Document) (hcode : code ≠ 200) (hget : get url = .reply code body) :
    fetchAnimeDetails get url = (Anime.zero, none) := by
  simp [fetchAnimeDetails, hget, hcode]

/-- C8: when the profile is fetched and parsed and no `div.status` entry has a
link with an `href` (in particular when there is no `div.status` at all), the
response is 404 with the plain-text message, and no detail fetch is made. -/
theorem no_activity_gives_404 (net : World) (doc : Document)
    (hprofile : net.profile "https://animekai.to/user/m3nvy/profile" = .reply 200 (some doc))
    (hnone : ∀ s ∈ doc.Find divStatusSel, statusHref s = none) :
    getCurrentlyWatching net =
      ⟨⟨404, "text/plain; charset=utf-8", .plain "No currently watching anime found\n"⟩, []⟩ := by
  have hpre : ∀ i s, (doc.Find divStatusSel)[i]? = some s →
      entryPassedOver net (0 + i) s = true := by
    intro i s hs
    have hmem : s ∈ doc.Find divStatusSel := List.getElem?_mem hs
    simp [entryPassedOver, hnone s hmem]
  have hscan := scan_passed_over net (doc.Find divStatusSel) [] 0 ⟨Anime.zero, false, []⟩ hpre
  rw [List.append_nil] at hscan
  rw [getCurrentlyWatching_parsed net doc hprofile, hscan, linkedURLs_of_no_href _ hnone]
  simp [eachWithBreakFrom, httpError]

/-- C8, on `idleNet`, whose status entry has an anchor without `href`. -/
theorem no_activity_gives_404_witness :
    getCurrentlyWatching idleNet =
      ⟨⟨404, "text/plain; charset=utf-8", .plain "No currently watching anime found\n"⟩, []⟩ :=
  no_activity_gives_404 idleNet idleDoc rfl (by decide)

/-- C9, as stated, fails on `detailDownNet`: every detail fetch fails in
`client.Do`, a Transport Fault, and the response is 404, not 500. -/
theorem detail_fault_gives_404 :
    (detailDownNet.detail 1 "https://animekai.to/watch/broken").isFault = true ∧
      (getCurrentlyWatching detailDownNet).reply.status = 404 ∧
      (getCurrentlyWatching detailDownNet).detailFetches =
        ["https://animekai.to/watch/broken", "https://animekai.to/watch/naruto-123",
          "https://animekai.to/watch/later"] :=
  ⟨by decide, by decide, by decide⟩

/-- C9, amended: the response status is 500 exactly when the profile fetch
faults (request construction, network failure, status other than 200, or
parse failure); then no detail fetch is made. Whatever happens at the
detail stage, the status is 200 or 404. -/
theorem status_500_iff_profile_fault (net : World) :
    ((getCurrentlyWatching net).reply.status = 500 ↔
        (net.profile "https://animekai.to/user/m3nvy/profile").isFault = true) ∧
      ((getCurrentlyWatching net).reply.status = 500 →
        (getCurrentlyWatching net).detailFetches = []) ∧
      ((net.profile "https://animekai.to/user/m3nvy/profile").isFault = false →
        (getCurrentlyWatching net).reply.status = 200 ∨
          (getCurrentlyWatching net).reply.status = 404) := by
  cases hp : net.profile "https://animekai.to/user/m3nvy/profile" with
  | requestError => simp [getCurrentlyWatching, hp, httpError, Response.isFault]
  | doError => simp [getCurrentlyWatching, hp, httpError, Response.isFault]
  | reply code body =>
    by_cases hcode : code = 200
    · subst hcode
      cases body with
      | none => simp [getCurrentlyWatching, hp, httpError, Response.isFault]
      | some doc =>
        rw [getCurrentlyWatching_parsed net doc hp]
        simp only []
        split <;> simp [httpError, Response.isFault]
    · simp [getCurrentlyWatching, hp, httpError, Response.isFault, hcode]

/-- C9 amended, on `detailDownNet`: the profile fetch does not fault, the
status is not 500. -/
theorem status_500_iff_profile_fault_witness :
    (getCurrentlyWatching detailDownNet).reply.status = 200 ∨
      (getCurrentlyWatching detailDownNet).reply.status = 404 :=
  (status_500_iff_profile_fault detailDownNet).2.2 (by decide)

/-- C10 fails with `PORT=3000`: the variable `port` of `main` is `3000`, and
the address passed to `http.ListenAndServe` is `:8080`. -/
theorem main_listens_on_8080_with_PORT_3000 :
    (main (envWithPort "3000")).port = "3000" ∧
      (main (envWithPort "3000")).listenAddr = ":8080" :=
  ⟨by decide, by decide⟩

/-- The address `main` listens on does not depend on the environment. -/
theorem main_listenAddr (getenv : String → String) : (main getenv).listenAddr = ":8080" :=
  rfl

end JamieWatching
